import Mathlib

/-!
Verification development for the `sshm` connection-registry program
(`src/main.py`).  The definitions below are a shallow embedding of the
program's data model and operations:

* `SSHConfig` embeds the `SSHConfig` dataclass (Python `int` is `Int`,
  `Optional[str]` is `Option String`).
* `JValue`/`JRecord` embed the JSON values that `dataclasses.asdict` /
  `json.dumps` / `json.loads` exchange; Fernet encryption is an external
  library bijection between this decrypted content and the file bytes and
  is not modelled.
* Registry operations (`add_config`, `remove_config`, ...) and the group
  tree queries (`get_all_groups`, `get_child_groups`, ...) are translated
  from the `SSHManager` methods.
* `UIState` and the `handle_*_input` functions embed the `SSHManagerUI`
  navigation state machine (curses rendering is outside the model; input
  events are the integer key codes the handlers branch on).
-/

/-- Embeds the `SSHConfig` dataclass of `src/main.py`. -/
structure SSHConfig where
  name : String
  host : String
  port : Int
  username : String
  password : Option String := none
  key_path : Option String := none
  group : Option String := none
deriving DecidableEq, Repr

/-- JSON values occurring in the program's serialized registry:
`json.dumps`/`json.loads` of `asdict(SSHConfig)` only produce strings,
integers and `null`. -/
inductive JValue where
  | jnull : JValue
  | jstr : String → JValue
  | jint : Int → JValue
deriving DecidableEq, Repr

/-- A JSON object, as the association list of its key/value pairs. -/
abbrev JRecord := List (String × JValue)

/-- Python falsiness of an `Optional[str]`: `None` and `""` are falsy. -/
def isFalsyOptStr : Option String → Bool
  | none => true
  | some s => s == ""

/-- Python truthiness test used by `config.get(...)` checks in
`decrypt_config`: `None`/missing, `""` and `0` are falsy. -/
def truthyJ : Option JValue → Bool
  | none => false
  | some JValue.jnull => false
  | some (JValue.jstr s) => s != ""
  | some (JValue.jint n) => n != 0

/-- Embeds `dataclasses.asdict` on an `SSHConfig`: the field order is the
dataclass declaration order. -/
def optStrJ : Option String → JValue
  | none => JValue.jnull
  | some s => JValue.jstr s

def toRecord (c : SSHConfig) : JRecord :=
  [("name", JValue.jstr c.name), ("host", JValue.jstr c.host),
   ("port", JValue.jint c.port), ("username", JValue.jstr c.username),
   ("password", optStrJ c.password), ("key_path", optStrJ c.key_path),
   ("group", optStrJ c.group)]

def sshFieldNames : List String :=
  ["name", "host", "port", "username", "password", "key_path", "group"]

def getJStr : Option JValue → Option String
  | some (JValue.jstr s) => some s
  | _ => none

def getJInt : Option JValue → Option Int
  | some (JValue.jint n) => some n
  | _ => none

def getJOptStr : Option JValue → Option (Option String)
  | none => some none
  | some JValue.jnull => some none
  | some (JValue.jstr s) => some (some s)
  | some (JValue.jint _) => none

/-- Embeds `SSHConfig(**config)` on a parsed JSON object.  Python checks
only the keyword names (a `TypeError` on an unknown key or a missing
required key); it does not validate value types.  This decoder
additionally requires the JSON types that `asdict` produces, which agrees
with Python on every record the program itself writes — the only records
`_load_config` reads back. -/
def ofRecord (r : JRecord) : Option SSHConfig :=
  if r.all (fun kv => sshFieldNames.contains kv.1) then
    match getJStr (r.lookup "name") with
    | none => none
    | some name =>
      match getJStr (r.lookup "host") with
      | none => none
      | some host =>
        match getJInt (r.lookup "port") with
        | none => none
        | some port =>
          match getJStr (r.lookup "username") with
          | none => none
          | some username =>
            match getJOptStr (r.lookup "password") with
            | none => none
            | some password =>
              match getJOptStr (r.lookup "key_path") with
              | none => none
              | some key_path =>
                match getJOptStr (r.lookup "group") with
                | none => none
                | some group =>
                  some { name := name, host := host, port := port,
                         username := username, password := password,
                         key_path := key_path, group := group }
  else none

/-- The decrypted content `_save_config` writes:
`[asdict(config) for config in self.configs]`. -/
def save_config_pure (configs : List SSHConfig) : List JRecord :=
  configs.map toRecord

/-- The parse step of `_load_config`:
`[SSHConfig(**config) for config in config_data]`; any failing record
makes the whole load fail (Python raises). -/
def load_config_pure : List JRecord → Option (List SSHConfig)
  | [] => some []
  | r :: rs =>
    match ofRecord r, load_config_pure rs with
    | some c, some cs => some (c :: cs)
    | _, _ => none

/-! ## Python `int(str)` -/

/-- The whitespace characters `int()` strips (ASCII subset). -/
def isPyWs (c : Char) : Bool :=
  c == ' ' || c == '\t' || c == '\n' || c == '\r' ||
  c == Char.ofNat 11 || c == Char.ofNat 12

def stripPyWs (l : List Char) : List Char :=
  ((l.dropWhile isPyWs).reverse.dropWhile isPyWs).reverse

/-- After a leading digit: digits optionally separated by single
underscores (PEP 515). -/
def digitTail : List Char → Bool
  | [] => true
  | '_' :: rest =>
    match rest with
    | [] => false
    | c :: rest2 => c.isDigit && digitTail rest2
  | c :: rest => c.isDigit && digitTail rest

def pyDigitsOk : List Char → Bool
  | [] => false
  | c :: rest => c.isDigit && digitTail rest

def digitsToNat (l : List Char) : Nat :=
  (l.filter (fun c => c != '_')).foldl (fun n c => 10 * n + (c.toNat - 48)) 0

/-- Embeds Python `int(s)` for `str` input: optional surrounding
whitespace, one optional sign, then decimal digits (with PEP 515
underscores); anything else raises `ValueError`.  (Non-ASCII digits and
non-ASCII whitespace, which CPython also accepts, are outside the model;
no input in this development uses them.) -/
def pyInt (s : String) : Option Int :=
  let l := stripPyWs s.data
  match l with
  | '+' :: rest => if pyDigitsOk rest then some (Int.ofNat (digitsToNat rest)) else none
  | '-' :: rest => if pyDigitsOk rest then some (-(Int.ofNat (digitsToNat rest))) else none
  | _ => if pyDigitsOk l then some (Int.ofNat (digitsToNat l)) else none

/-! ## Python string primitives

Python compares strings lexicographically by code point and measures them
in code points; these structural `List Char` versions of the needed
primitives mirror that and, unlike the built-in `String` loops, evaluate
inside the kernel. -/

/-- Lexicographic-by-code-point `a <= b` of Python. -/
def charListLeb : List Char → List Char → Bool
  | [], _ => true
  | _ :: _, [] => false
  | a :: as, b :: bs => if a = b then charListLeb as bs else decide (a < b)

def strLe (a b : String) : Prop := charListLeb a.data b.data = true

instance : DecidableRel strLe := fun _ _ =>
  inferInstanceAs (Decidable (_ = true))

/-- Strict Python string order. -/
def strLt (a b : String) : Prop := strLe a b ∧ a ≠ b

/-- Python `c in s`. -/
def strContains (s : String) (c : Char) : Bool := s.data.contains c

/-- Python `s.startswith(pre)`. -/
def strStartsWith (s pre : String) : Bool := pre.data.isPrefixOf s.data

/-- Python `s[n:]`. -/
def strDrop (s : String) (n : Nat) : String := String.mk (s.data.drop n)

/-- Python `len(s)`. -/
def strLen (s : String) : Nat := s.data.length

/-- `sep` is a prefix of the list: give back what follows it. -/
def dropPrefQ : List Char → List Char → Option (List Char)
  | [], rest => some rest
  | _ :: _, [] => none
  | p :: ps, c :: cs => if c = p then dropPrefQ ps cs else none

/-- Worker for `pySplit`: `acc` holds the current piece reversed; fuel is
structural so the kernel can evaluate (the zero-fuel fallback is
unreachable when fuel starts above the input length). -/
def splitOnFuel (sep : List Char) : Nat → List Char → List Char → List (List Char)
  | _, acc, [] => [acc.reverse]
  | 0, acc, l => [acc.reverse ++ l]
  | Nat.succ fuel, acc, c :: cs =>
    match dropPrefQ sep (c :: cs) with
    | some rest => acc.reverse :: splitOnFuel sep fuel [] rest
    | none => splitOnFuel sep fuel (c :: acc) cs

/-- Python `s.split(sep)` for a non-empty separator (the program only
splits on `"/"` and `" ("`): cut at every non-overlapping occurrence,
scanning left to right. -/
def pySplit (s sep : String) : List String :=
  (splitOnFuel sep.data (s.data.length + 1) [] s.data).map String.mk

/-! ## Sorting (Python `sorted`) -/

/-- Python `sorted` on strings: lexicographic by code point.  `sorted` is
a stable sort, and any stable sort computes the same list; insertion sort
is stable. -/
def sortStrs (l : List String) : List String :=
  List.insertionSort strLe l

/-- The key order of `sorted(configs, key=lambda x: x.name)`. -/
def nameLe (a b : SSHConfig) : Prop := strLe a.name b.name

instance : DecidableRel nameLe := fun a b =>
  inferInstanceAs (Decidable (strLe a.name b.name))

/-- Strict name order (used to state uniqueness of the sorted listing). -/
def nameLt (a b : SSHConfig) : Prop := strLe a.name b.name ∧ a.name ≠ b.name

/-- Python `sorted(configs, key=lambda x: x.name)`: stable sort by name. -/
def sortByName (cs : List SSHConfig) : List SSHConfig :=
  List.insertionSort nameLe cs

/-! ## Registry operations (`SSHManager`) -/

/-- `remove_config`: `self.configs = [c for c in self.configs if c.name != name]`
(the in-memory part; persistence is modelled separately by `remove_config_m`). -/
def remove_config (name : String) (configs : List SSHConfig) : List SSHConfig :=
  configs.filter (fun c => c.name != name)

/-- `add_config`: remove any same-named config, then append. -/
def add_config (config : SSHConfig) (configs : List SSHConfig) : List SSHConfig :=
  remove_config config.name configs ++ [config]

/-- `get_config`: first config with the given name. -/
def get_config (name : String) (configs : List SSHConfig) : Option SSHConfig :=
  configs.find? (fun c => c.name == name)

/-- `get_all_groups`: Python builds `set` of the truthy `group` values and
returns `sorted(list(...))` — the strictly increasing list of the distinct
values. -/
def get_all_groups (configs : List SSHConfig) : List String :=
  sortStrs ((configs.filterMap SSHConfig.group).filter (fun g => g != "")).dedup

/-- `get_group_configs`: profiles whose `group` equals the path exactly;
a falsy path (`None` or `""`) selects the ungrouped profiles. -/
def get_group_configs (group_path : Option String) (configs : List SSHConfig) :
    List SSHConfig :=
  if isFalsyOptStr group_path then configs.filter (fun c => isFalsyOptStr c.group)
  else configs.filter (fun c => c.group == group_path)

/-- `get_parent_groups`: the strict prefix-paths of a group path.  (Dead
code in the program: defined but never called.) -/
def get_parent_groups (group_path : String) : List String :=
  if group_path == "" then []
  else
    (((pySplit group_path "/").dropLast).foldl
      (fun acc part =>
        let current := if acc.2 == "" then part else acc.2 ++ "/" ++ part
        (acc.1 ++ [current], current)) ([], "")).1

/-- `get_child_groups`: at a falsy path, the stored group values without a
`/`; otherwise the stored group values extending `path + "/"` by exactly
one segment. -/
def get_child_groups (group_path : Option String) (configs : List SSHConfig) :
    List String :=
  if isFalsyOptStr group_path then
    (get_all_groups configs).filter (fun g => !(strContains g '/'))
  else
    let p := group_path.getD ""
    (get_all_groups configs).filter
      (fun g => strStartsWith g (p ++ "/") && !(strContains (strDrop g (strLen p + 1)) '/'))

/-- `count_group_items`: configs in the group plus direct subgroups. -/
def count_group_items (group_path : Option String) (configs : List SSHConfig) : Nat :=
  (get_group_configs group_path configs).length + (get_child_groups group_path configs).length

/-! ## Persistence (`_save_config` / `_load_config` with the on-disk file)

The manager state pairs the in-memory sequence with the decrypted view of
the on-disk registry file (`none` = file absent).  A write outcome flag
models `Path.write_bytes` raising an `OSError`; the failed-write case
charitably assumes the prior content survives — the code writes in place
with no temporary file, so even this much is not guaranteed by the
source. -/

structure Mgr where
  configs : List SSHConfig
  disk : Option (List JRecord)
deriving DecidableEq, Repr

/-- What `_load_config` yields from a given on-disk state: an absent file
is an empty sequence, otherwise decrypt-and-parse. -/
def loaded_view : Option (List JRecord) → Option (List SSHConfig)
  | none => some []
  | some rs => load_config_pure rs

/-- The in-memory sequence and the decrypted on-disk file agree. -/
abbrev mgr_agrees (m : Mgr) : Prop := loaded_view m.disk = some m.configs

/-- `_save_config` on the disk: serialize the full sequence and write.
Returns the new disk state and whether the write returned normally. -/
def save_config_m (writeOk : Bool) (configs : List SSHConfig)
    (disk : Option (List JRecord)) : Option (List JRecord) × Bool :=
  if writeOk then (some (save_config_pure configs), true) else (disk, false)

/-- `remove_config` with persistence: the in-memory filter is assigned
before `_save_config` runs, so it stays in place when the write raises. -/
def remove_config_m (writeOk : Bool) (name : String) (m : Mgr) : Mgr × Bool :=
  let configs' := remove_config name m.configs
  let save := save_config_m writeOk configs' m.disk
  (⟨configs', save.1⟩, save.2)

/-- `add_config` with persistence: first `remove_config` (which itself
saves), then append and save again.  An exception from the first save
propagates out of `add_config` before the append happens. -/
def add_config_m (writeOk1 writeOk2 : Bool) (config : SSHConfig) (m : Mgr) :
    Mgr × Bool :=
  let step1 := remove_config_m writeOk1 config.name m
  if step1.2 then
    let configs' := step1.1.configs ++ [config]
    let save := save_config_m writeOk2 configs' step1.1.disk
    (⟨configs', save.1⟩, save.2)
  else (step1.1, false)

/-! ## Navigation state machine (`SSHManagerUI`)

The handlers consume curses key codes (`Int`).  Rendering, the curses
calls and the external `ssh`/`sftp` launch are outside the model; of the
side effects of connecting, only the `show_message` call (which mutates
the transient-message fields) is kept.  Persistence during UI operation
is tracked by `Mgr` above; `UIState.configs` is the in-memory sequence
`self.ssh_manager.configs`. -/

inductive Mode where
  | list : Mode
  | add : Mode
  | edit : Mode
  | confirm_delete : Mode
deriving DecidableEq, Repr

/-- The `self.input_values` dict: its keys are always exactly the seven
field names of `self.input_fields`. -/
structure InputValues where
  name : String
  host : String
  port : String
  username : String
  password : String
  key_path : String
  group : String
deriving DecidableEq, Repr

def emptyInputValues : InputValues := ⟨"", "", "", "", "", "", ""⟩

def InputValues.get (iv : InputValues) (field : String) : String :=
  if field = "name" then iv.name
  else if field = "host" then iv.host
  else if field = "port" then iv.port
  else if field = "username" then iv.username
  else if field = "password" then iv.password
  else if field = "key_path" then iv.key_path
  else if field = "group" then iv.group
  else ""

/-- Update one field.  An unknown field name leaves the record unchanged
(unreachable: callers index `self.input_fields`). -/
def InputValues.set (iv : InputValues) (field v : String) : InputValues :=
  if field = "name" then { iv with name := v }
  else if field = "host" then { iv with host := v }
  else if field = "port" then { iv with port := v }
  else if field = "username" then { iv with username := v }
  else if field = "password" then { iv with password := v }
  else if field = "key_path" then { iv with key_path := v }
  else if field = "group" then { iv with group := v }
  else iv

def input_fields : List String :=
  ["name", "host", "port", "username", "password", "key_path", "group"]

/-- The third component of a display tuple: `None`, a group path string,
or the config itself. -/
inductive ItemData where
  | noData : ItemData
  | groupPath : String → ItemData
  | configRef : SSHConfig → ItemData
deriving DecidableEq, Repr

/-- One `(label, item_type, data)` display tuple. -/
structure DisplayItem where
  label : String
  kind : String
  data : ItemData
deriving DecidableEq, Repr

structure UIState where
  configs : List SSHConfig
  current_index : Nat
  mode : Mode
  editing_config : Option SSHConfig
  current_field : Nat
  input_values : InputValues
  message : String
  message_timeout : Nat
  delete_confirm : Option SSHConfig
  current_path : List String
  display_items : List DisplayItem
  password_visible : Bool
deriving DecidableEq, Repr

/-- `'/'.join(self.current_path) if self.current_path else None`. -/
def current_group_of (path : List String) : Option String :=
  if path.isEmpty then none else some (String.intercalate "/" path)

/-- The label `f"{group_name} ({count})"` of a group row. -/
def group_label (g : String) (configs : List SSHConfig) : String :=
  ((pySplit g "/").getLastD "") ++ " (" ++ toString (count_group_items (some g) configs) ++ ")"

/-- The label `f"{config.name} ({config.host})"` of a config row. -/
def config_label (c : SSHConfig) : String :=
  c.name ++ " (" ++ c.host ++ ")"

/-- `_build_display_items`: optional `..` row, then the direct child
groups in `sorted` order, then the current group's configs sorted by
name. -/
def build_display_items (s : UIState) : UIState :=
  let current_group := current_group_of s.current_path
  let up_items : List DisplayItem :=
    if s.current_path.isEmpty then [] else [⟨"..", "dir", ItemData.noData⟩]
  let group_items := (sortStrs (get_child_groups current_group s.configs)).map
    (fun g => (⟨group_label g s.configs, "dir", ItemData.groupPath g⟩ : DisplayItem))
  let config_items := (sortByName (get_group_configs current_group s.configs)).map
    (fun c => (⟨config_label c, "config", ItemData.configRef c⟩ : DisplayItem))
  { s with display_items := up_items ++ group_items ++ config_items }

def KEY_UP : Int := 259
def KEY_DOWN : Int := 258
def KEY_BACKSPACE : Int := 263

/-- The edit buffer pre-filled from an existing config (`str(data.port)`,
falsy optionals become `""`). -/
def edit_buffer_of (c : SSHConfig) : InputValues :=
  ⟨c.name, c.host, toString c.port, c.username,
   c.password.getD "", c.key_path.getD "", c.group.getD ""⟩

def show_message_s (msg : String) (s : UIState) : UIState :=
  { s with message := msg, message_timeout := 3 }

/-- The display row `handle_list_input` reads at `self.current_index`.
Python raises `IndexError` when the index is out of range (a state the
confirm-delete clamp bug can reach); the default row stands in for that
crash and is never read in any theorem below. -/
def selected_item (s : UIState) : DisplayItem :=
  s.display_items.getD s.current_index ⟨"", "", ItemData.noData⟩

/-- Transition into edit mode from a selected config row (shared by the
Enter and `e` branches of `handle_list_input`). -/
def enter_edit (c : SSHConfig) (s : UIState) : UIState :=
  { s with editing_config := some c, mode := Mode.edit,
           input_values := edit_buffer_of c, current_field := 0 }

/-- `handle_list_input`: returns the new state and the `running` flag
(`False` only for `q`). -/
def handle_list_input (key : Int) (s : UIState) : UIState × Bool :=
  if key = KEY_UP ∧ s.current_index > 0 then
    ({ s with current_index := s.current_index - 1 }, true)
  else if key = KEY_DOWN ∧ s.current_index < s.display_items.length - 1 then
    -- Python compares against `len - 1` over ℤ; for an empty listing the
    -- guard is `0 < -1`, false, matching `0 < 0` over ℕ here.
    ({ s with current_index := s.current_index + 1 }, true)
  else if key = 10 then
    if s.display_items ≠ [] then
      let item := selected_item s
      if item.kind = "dir" then
        if item.label = ".." then
          if s.current_path ≠ [] then
            ({ s with current_path := s.current_path.dropLast, current_index := 0 }, true)
          else (s, true)
        else
          -- descends using the label text before the first " (";
          -- `item.split(" (")[0]`
          ({ s with current_path := s.current_path ++ [(pySplit item.label " (").headD ""],
                    current_index := 0 }, true)
      else
        match item.data with
        | ItemData.configRef c => (enter_edit c s, true)
        | _ => (s, true)  -- config rows always carry their config
    else (s, true)
  else if key = 97 then  -- ord 'a'
    let iv := if ¬ s.current_path.isEmpty then
        { emptyInputValues with group := String.intercalate "/" s.current_path }
      else emptyInputValues
    ({ s with mode := Mode.add, input_values := iv, current_field := 0 }, true)
  else if key = 101 then  -- ord 'e'
    if s.display_items ≠ [] then
      let item := selected_item s
      if item.kind = "config" then
        match item.data with
        | ItemData.configRef c => (enter_edit c s, true)
        | _ => (s, true)
      else (s, true)
    else (s, true)
  else if key = 100 then  -- ord 'd'
    if s.display_items ≠ [] then
      let item := selected_item s
      if item.kind = "config" then
        match item.data with
        | ItemData.configRef c =>
          ({ s with mode := Mode.confirm_delete, delete_confirm := some c }, true)
        | _ => (s, true)
      else (s, true)
    else (s, true)
  else if key = 113 then (s, false)  -- ord 'q'
  else if key = 99 then  -- ord 'c': message, then external ssh launch
    if s.display_items ≠ [] then
      let item := selected_item s
      if item.kind = "config" then
        match item.data with
        | ItemData.configRef c =>
          (show_message_s ("Connecting to " ++ c.host ++ "...") s, true)
        | _ => (s, true)
      else (s, true)
    else (s, true)
  else if key = 115 then  -- ord 's': message, then external sftp launch
    if s.display_items ≠ [] then
      let item := selected_item s
      if item.kind = "config" then
        match item.data with
        | ItemData.configRef c =>
          (show_message_s ("Starting SFTP session with " ++ c.host ++ "...") s, true)
        | _ => (s, true)
      else (s, true)
    else (s, true)
  else (s, true)

/-- The `str(e)` text of the `ValueError` that `int()` raises on the port
buffer.  (CPython quotes the repr of the input; escaping of exotic
characters inside it is not modelled and no theorem depends on this
text.) -/
def submit_error_msg (port : String) : String :=
  "Error: invalid literal for int() with base 10: " ++ "'" ++ port ++ "'"

/-- The `SSHConfig(...)` built by the Enter branch of `handle_add_input`:
empty optional buffers become `None`. -/
def mk_submitted_config (iv : InputValues) (port : Int) : SSHConfig :=
  { name := iv.name, host := iv.host, port := port, username := iv.username,
    password := if iv.password = "" then none else some iv.password,
    key_path := if iv.key_path = "" then none else some iv.key_path,
    group := if iv.group = "" then none else some iv.group }

/-- `handle_add_input` (shared by `add` and `edit` modes; always returns
`running = True` in Python). -/
def handle_add_input (key : Int) (s : UIState) : UIState :=
  if key = KEY_UP ∧ s.current_field > 0 then
    { s with current_field := s.current_field - 1 }
  else if key = KEY_DOWN ∧ s.current_field < input_fields.length - 1 then
    { s with current_field := s.current_field + 1 }
  else if key = 27 then  -- Esc
    { s with mode := Mode.list, editing_config := none }
  else if key = 20 then  -- Ctrl+T
    if input_fields.getD s.current_field "" = "password" then
      { s with password_visible := !s.password_visible }
    else s
  else if key = 10 then  -- Enter: the try block whose only ValueError source is int()
    match pyInt s.input_values.port with
    | none => show_message_s (submit_error_msg s.input_values.port) s
    | some port =>
      let config := mk_submitted_config s.input_values port
      if s.mode = Mode.edit then
        match s.editing_config with
        | some old =>
          { s with configs := add_config config (remove_config old.name s.configs),
                   message := "Updated connection: " ++ config.name,
                   message_timeout := 3, mode := Mode.list, editing_config := none }
        | none => s  -- unreachable: every transition into edit sets editing_config
      else
        { s with configs := add_config config s.configs,
                 message := "Added connection: " ++ config.name,
                 message_timeout := 3, mode := Mode.list, editing_config := none }
  else if 32 ≤ key ∧ key ≤ 126 then  -- printable characters
    let field := input_fields.getD s.current_field ""
    { s with input_values :=
        s.input_values.set field (s.input_values.get field ++ String.singleton (Char.ofNat key.toNat)) }
  else if key = KEY_BACKSPACE ∨ key = 127 then
    let field := input_fields.getD s.current_field ""
    { s with input_values := s.input_values.set field ((s.input_values.get field).dropRight 1) }
  else s

/-- `handle_confirm_delete`.  Note the clamp compares against the display
list built before the deletion (`_build_display_items` only runs when the
list screen is next drawn). -/
def handle_confirm_delete (key : Int) (s : UIState) : UIState :=
  if key = 121 then  -- ord 'y'
    match s.delete_confirm with
    | some config =>
      let s1 := { s with configs := remove_config config.name s.configs }
      let s2 := if s1.current_index ≥ s1.display_items.length then
          -- max(0, len - 1): for an empty listing ℕ subtraction gives 0
          { s1 with current_index := s1.display_items.length - 1 }
        else s1
      { show_message_s ("Deleted connection: " ++ config.name) s2 with
          mode := Mode.list, delete_confirm := none }
    | none => s  -- unreachable: entering confirm_delete always sets delete_confirm
  else if key = 110 ∨ key = 27 then  -- 'n' or Esc
    { show_message_s "Deletion cancelled" s with mode := Mode.list, delete_confirm := none }
  else s

/-- The mode dispatch of the `run` loop around one input event. -/
def handle_input (key : Int) (s : UIState) : UIState × Bool :=
  match s.mode with
  | Mode.list => handle_list_input key s
  | Mode.add => (handle_add_input key s, true)
  | Mode.edit => (handle_add_input key s, true)
  | Mode.confirm_delete => (handle_confirm_delete key s, true)

/-- The key codes that have a branch in the handler of each mode — the
events listed as transitions for the state. -/
def recognized_key (m : Mode) (key : Int) : Prop :=
  match m with
  | Mode.list =>
    key = KEY_UP ∨ key = KEY_DOWN ∨ key = 10 ∨ key = 97 ∨ key = 101 ∨
    key = 100 ∨ key = 113 ∨ key = 99 ∨ key = 115
  | Mode.add | Mode.edit =>
    key = KEY_UP ∨ key = KEY_DOWN ∨ key = 27 ∨ key = 20 ∨ key = 10 ∨
    (32 ≤ key ∧ key ≤ 126) ∨ key = KEY_BACKSPACE ∨ key = 127
  | Mode.confirm_delete => key = 121 ∨ key = 110 ∨ key = 27

instance (m : Mode) (key : Int) : Decidable (recognized_key m key) :=
  match m with
  | Mode.list => inferInstanceAs (Decidable (_ ∨ _))
  | Mode.add => inferInstanceAs (Decidable (_ ∨ _))
  | Mode.edit => inferInstanceAs (Decidable (_ ∨ _))
  | Mode.confirm_delete => inferInstanceAs (Decidable (_ ∨ _))

/-! ## `--show-config` (`main` non-interactive branch)

The registry file is modelled by its decryption/parse outcome relative to
the key in use: absent, failing Fernet authentication (wrong or rotated
key, tampered bytes), decrypting to text `json.loads` rejects, or
decrypting to a JSON list of objects.  Key-file I/O errors, which also
abort the process, are outside the model. -/

inductive ConfigFileState where
  | absent : ConfigFileState
  | undecryptable : ConfigFileState
  | badJson : ConfigFileState
  | records : List JRecord → ConfigFileState
deriving DecidableEq, Repr

/-- What `_load_config` (run by `SSHManager.__init__`) produces:
`none` means an uncaught exception (`InvalidToken`, a JSON error, or
`TypeError` from `SSHConfig(**config)`). -/
def load_config_result : ConfigFileState → Option (List SSHConfig)
  | ConfigFileState.absent => some []
  | ConfigFileState.undecryptable => none
  | ConfigFileState.badJson => none
  | ConfigFileState.records rs => load_config_pure rs

/-- Python `f"...{value}..."` formatting of a JSON value as it appears in
`decrypt_config`. -/
def jvalFmt : JValue → String
  | JValue.jstr s => s
  | JValue.jint n => toString n
  | JValue.jnull => "None"

/-- One profile block of `decrypt_config`: the four `config[...]`
accesses raise `KeyError` when missing (`none` here); the password value
is replaced by the literal `[encrypted]`. -/
def formatRecord (r : JRecord) : Option String :=
  match r.lookup "name", r.lookup "host", r.lookup "port", r.lookup "username" with
  | some nameV, some hostV, some portV, some userV =>
    some (String.intercalate "\n"
      (["Name: " ++ jvalFmt nameV, "Host: " ++ jvalFmt hostV,
        "Port: " ++ jvalFmt portV, "Username: " ++ jvalFmt userV]
       ++ (if truthyJ (r.lookup "password") then ["Password: [encrypted]"] else [])
       ++ (if truthyJ (r.lookup "key_path") then
             ["Key Path: " ++ jvalFmt ((r.lookup "key_path").getD JValue.jnull)] else [])
       ++ (if truthyJ (r.lookup "group") then
             ["Group: " ++ jvalFmt ((r.lookup "group").getD JValue.jnull)] else [])))
  | _, _, _, _ => none

def formatRecords : List JRecord → Option (List String)
  | [] => some []
  | r :: rs =>
    match formatRecord r, formatRecords rs with
    | some s, some ss => some (s :: ss)
    | _, _ => none

/-- `decrypt_config`, as a function of the file state.  Its `except`
branch returns an error STRING instead of raising; the exact `str(e)`
texts are runtime-specific placeholders here, and those branches are
unreachable in the `--show-config` flow because `__init__` has already
decrypted and parsed the same file successfully. -/
def decrypt_config_str (f : ConfigFileState) : String :=
  match f with
  | ConfigFileState.absent => "No config file found."
  | ConfigFileState.undecryptable => "Error decrypting config: InvalidToken"
  | ConfigFileState.badJson => "Error decrypting config: JSONDecodeError"
  | ConfigFileState.records rs =>
    match formatRecords rs with
    | some blocks => String.intercalate "\n\n" blocks
    | none => "Error decrypting config: KeyError"

/-- The `--show-config` branch of `main`: construct `SSHManager` (whose
`__init__` loads the registry; an exception there is uncaught, so the
interpreter exits with status 1 and prints nothing on stdout), then print
`decrypt_config()` and return (exit status 0). -/
def main_show_config (f : ConfigFileState) : Nat × Option String :=
  match load_config_result f with
  | none => (1, none)
  | some _ => (0, some (decrypt_config_str f))

/-! ## Concrete fixtures used by counterexamples and witnesses -/

def cfgA : SSHConfig := { name := "alpha", host := "h1", port := 22, username := "u" }

def cfgB : SSHConfig := { name := "beta", host := "h2", port := 22, username := "u" }

/-- The §8 "Group derivation" profiles: groups `a/b`, `a/c`, absent. -/
def demoGrouped : List SSHConfig :=
  [{ name := "p1", host := "h", port := 22, username := "u", group := some "a/b" },
   { name := "p2", host := "h", port := 22, username := "u", group := some "a/c" },
   { name := "p3", host := "h", port := 22, username := "u" }]

def uiBase : UIState :=
  { configs := [], current_index := 0, mode := Mode.list, editing_config := none,
    current_field := 0, input_values := emptyInputValues, message := "",
    message_timeout := 0, delete_confirm := none, current_path := [],
    display_items := [], password_visible := false }

/-- A freshly drawn browse screen over the two-profile registry. -/
def browse0 : UIState := build_display_items { uiBase with configs := [cfgA, cfgB] }

/-- After `MoveDown`: the second row (`cfgB`) is selected. -/
def c7_state1 : UIState := (handle_list_input KEY_DOWN browse0).1

/-- After `d` (`StartDelete`) on the selected `cfgB` row. -/
def c7_state2 : UIState := (handle_list_input 100 c7_state1).1

/-- After `y` (`Confirm`): `cfgB` deleted. -/
def c7_state3 : UIState := handle_confirm_delete 121 c7_state2

/-- A manager whose memory and disk agree on the one-profile registry. -/
def mgrDemo : Mgr := { configs := [cfgA], disk := some [toRecord cfgA] }

/-- An edit buffer violating every validation the specification lists:
empty `name`/`host`/`username` and a port outside 1–65535. -/
def badSubmitState : UIState :=
  { uiBase with
    mode := Mode.add,
    input_values := { name := "", host := "", port := "99999", username := "",
                      password := "", key_path := "", group := "" } }

def dupX1 : SSHConfig := { name := "x", host := "1", port := 22, username := "u" }

def dupX2 : SSHConfig := { name := "x", host := "2", port := 22, username := "u" }

def uiDupA : UIState := { uiBase with configs := [dupX1, dupX2] }

def uiDupB : UIState := { uiBase with configs := [dupX2, dupX1] }

/-! ## Order properties of the Python string comparison -/

theorem charListLeb_total : ∀ as bs : List Char,
    charListLeb as bs = true ∨ charListLeb bs as = true
  | [], _ => Or.inl rfl
  | _ :: _, [] => Or.inr rfl
  | a :: as, b :: bs => by
    by_cases hab : a = b
    · subst hab
      rcases charListLeb_total as bs with h | h
      · exact Or.inl (by simp [charListLeb, h])
      · exact Or.inr (by simp [charListLeb, h])
    · rcases lt_trichotomy a b with h | h | h
      · exact Or.inl (by simp [charListLeb, hab, h])
      · exact absurd h hab
      · exact Or.inr (by simp [charListLeb, Ne.symm hab, h])

theorem charListLeb_trans : ∀ as bs cs : List Char,
    charListLeb as bs = true → charListLeb bs cs = true → charListLeb as cs = true
  | [], _, _, _, _ => rfl
  | _ :: _, [], _, h, _ => by simp [charListLeb] at h
  | _ :: _, _ :: _, [], _, h => by simp [charListLeb] at h
  | a :: as, b :: bs, c :: cs, h1, h2 => by
    by_cases hab : a = b <;> by_cases hbc : b = c
    · subst hab; subst hbc
      simp only [charListLeb, if_pos rfl] at h1 h2 ⊢
      exact charListLeb_trans as bs cs h1 h2
    · subst hab
      simp only [charListLeb, if_pos rfl, if_neg hbc] at h2 ⊢
      simp [hbc, h2]
    · subst hbc
      simp only [charListLeb, if_pos rfl, if_neg hab] at h1 ⊢
      simp [hab, h1]
    · simp only [charListLeb, if_neg hab, if_neg hbc, decide_eq_true_eq] at h1 h2
      have hac : a < c := lt_trans h1 h2
      simp [charListLeb, ne_of_lt hac, hac]

theorem charListLeb_antisymm : ∀ as bs : List Char,
    charListLeb as bs = true → charListLeb bs as = true → as = bs
  | [], [], _, _ => rfl
  | [], _ :: _, _, h => by simp [charListLeb] at h
  | _ :: _, [], h, _ => by simp [charListLeb] at h
  | a :: as, b :: bs, h1, h2 => by
    by_cases hab : a = b
    · subst hab
      simp only [charListLeb, if_pos rfl] at h1 h2
      exact congrArg (a :: ·) (charListLeb_antisymm as bs h1 h2)
    · simp only [charListLeb, if_neg hab, if_neg (Ne.symm hab), decide_eq_true_eq] at h1 h2
      exact absurd (lt_trans h1 h2) (lt_irrefl a)

instance : IsTotal String strLe := ⟨fun a b => charListLeb_total a.data b.data⟩

instance : IsTrans String strLe := ⟨fun a b c => charListLeb_trans a.data b.data c.data⟩

instance : IsAntisymm String strLe :=
  ⟨fun a b h1 h2 => by
    cases a; cases b
    exact congrArg String.mk (charListLeb_antisymm _ _ h1 h2)⟩

instance : IsTotal SSHConfig nameLe := ⟨fun a b => charListLeb_total a.name.data b.name.data⟩

instance : IsTrans SSHConfig nameLe :=
  ⟨fun a b c => charListLeb_trans a.name.data b.name.data c.name.data⟩

instance : IsAntisymm SSHConfig nameLt :=
  ⟨fun _ _ h1 h2 => absurd (antisymm h1.1 h2.1) h1.2⟩

instance : IsAntisymm String strLt :=
  ⟨fun _ _ h1 h2 => absurd (antisymm h1.1 h2.1) h1.2⟩

/-! ## Serialization round trip -/

theorem ofRecord_toRecord (c : SSHConfig) : ofRecord (toRecord c) = some c := by
  rcases c with ⟨n, h, p, u, pw, kp, g⟩
  cases pw <;> cases kp <;> cases g <;>
    simp [ofRecord, toRecord, sshFieldNames, List.lookup, getJStr, getJInt, getJOptStr,
      optStrJ, List.all]

theorem load_after_save_aux (cs : List SSHConfig) :
    load_config_pure (cs.map toRecord) = some cs := by
  induction cs with
  | nil => rfl
  | cons c cs ih => simp [load_config_pure, ofRecord_toRecord, ih]

/-! ## Permutation and sortedness lemmas for the derived group view -/

theorem sortStrs_sorted (l : List String) : (sortStrs l).Pairwise strLe :=
  List.sorted_insertionSort strLe l

theorem sortStrs_perm (l : List String) : (sortStrs l).Perm l :=
  List.perm_insertionSort strLe l

theorem sortByName_sorted (cs : List SSHConfig) : (sortByName cs).Pairwise nameLe :=
  List.sorted_insertionSort nameLe cs

theorem sortByName_perm (cs : List SSHConfig) : (sortByName cs).Perm cs :=
  List.perm_insertionSort nameLe cs

theorem get_all_groups_nodup (configs : List SSHConfig) :
    (get_all_groups configs).Nodup :=
  ((sortStrs_perm _).nodup_iff).mpr (List.nodup_dedup _)

theorem get_all_groups_perm_eq {l1 l2 : List SSHConfig} (h : l1.Perm l2) :
    get_all_groups l1 = get_all_groups l2 :=
  List.eq_of_perm_of_sorted
    ((sortStrs_perm _).trans ((((h.filterMap _).filter _).dedup).trans (sortStrs_perm _).symm))
    (sortStrs_sorted _) (sortStrs_sorted _)

theorem get_child_groups_perm_eq (gp : Option String) {l1 l2 : List SSHConfig}
    (h : l1.Perm l2) : get_child_groups gp l1 = get_child_groups gp l2 := by
  simp only [get_child_groups, get_all_groups_perm_eq h]

theorem get_group_configs_perm (gp : Option String) {l1 l2 : List SSHConfig}
    (h : l1.Perm l2) : (get_group_configs gp l1).Perm (get_group_configs gp l2) := by
  unfold get_group_configs
  by_cases hf : isFalsyOptStr gp = true <;> simp [hf] <;> exact h.filter _

theorem count_group_items_perm_eq (gp : Option String) {l1 l2 : List SSHConfig}
    (h : l1.Perm l2) : count_group_items gp l1 = count_group_items gp l2 := by
  unfold count_group_items
  rw [(get_group_configs_perm gp h).length_eq, get_child_groups_perm_eq gp h]

theorem group_label_perm_eq (g : String) {l1 l2 : List SSHConfig} (h : l1.Perm l2) :
    group_label g l1 = group_label g l2 := by
  unfold group_label
  rw [count_group_items_perm_eq (some g) h]

/-- Two lists that are permutations of one another, both sorted by name,
with no repeated name, are equal. -/
theorem sorted_nameLe_nodup_eq {l1 l2 : List SSHConfig} (hperm : l1.Perm l2)
    (hs1 : l1.Pairwise nameLe) (hs2 : l2.Pairwise nameLe)
    (hnd : (l1.map SSHConfig.name).Nodup) : l1 = l2 := by
  have hnd2 : (l2.map SSHConfig.name).Nodup := ((hperm.map _).nodup_iff).mp hnd
  have hlt1 : l1.Pairwise nameLt :=
    (hs1.and (List.pairwise_map.mp hnd)).imp (fun h => h)
  have hlt2 : l2.Pairwise nameLt :=
    (hs2.and (List.pairwise_map.mp hnd2)).imp (fun h => h)
  exact List.eq_of_perm_of_sorted hperm hlt1 hlt2

theorem sortByName_perm_eq {l1 l2 : List SSHConfig} (h : l1.Perm l2)
    (hnd : (l1.map SSHConfig.name).Nodup) : sortByName l1 = sortByName l2 := by
  apply sorted_nameLe_nodup_eq
  · exact (sortByName_perm l1).trans (h.trans (sortByName_perm l2).symm)
  · exact sortByName_sorted l1
  · exact sortByName_sorted l2
  · exact (((sortByName_perm l1).map _).nodup_iff).mpr hnd

/-! ## Registry upsert lemmas -/

theorem remove_config_add_config (p : SSHConfig) (cs : List SSHConfig) :
    remove_config p.name (add_config p cs) = remove_config p.name cs := by
  simp only [add_config, remove_config, List.filter_append, List.filter_filter]
  simp [List.filter_congr]

theorem filter_eq_name_remove (nm : String) (cs : List SSHConfig) :
    (remove_config nm cs).filter (fun c => c.name == nm) = [] := by
  rw [List.filter_eq_nil_iff]
  intro c hc
  rcases List.mem_filter.mp hc with ⟨_, hne⟩
  simp only [bne_iff_ne, ne_eq] at hne
  simp [hne]

/-- C5: `add_or_replace` removes every profile sharing the new name,
appends the new profile at the end (it is total, so it never fails on a
duplicate name), and applying it twice with the same profile leaves
exactly one entry carrying that name — indeed the same registry. -/
theorem C5_upsert (p : SSHConfig) (cs : List SSHConfig) :
    (add_config p cs).dropLast = remove_config p.name cs ∧
    (add_config p cs).getLast? = some p ∧
    (add_config p (add_config p cs)).filter (fun c => c.name == p.name) = [p] ∧
    add_config p (add_config p cs) = add_config p cs := by
  have hrm := remove_config_add_config p cs
  refine ⟨List.dropLast_concat, List.getLast?_concat _, ?_, ?_⟩
  · show ((remove_config p.name (add_config p cs)) ++ [p]).filter (fun c => c.name == p.name) = [p]
    rw [hrm, List.filter_append, filter_eq_name_remove]
    simp
  · show remove_config p.name (add_config p cs) ++ [p] = add_config p cs
    rw [hrm]; rfl

/-- C6: starting from a registry in which every profile name is unique,
both mutating operations (`add_or_replace` and `remove`) preserve the
uniqueness of profile names. -/
theorem C6_name_unique_invariant (p : SSHConfig) (nm : String) (cs : List SSHConfig)
    (h : (cs.map SSHConfig.name).Nodup) :
    ((add_config p cs).map SSHConfig.name).Nodup ∧
    ((remove_config nm cs).map SSHConfig.name).Nodup := by
  have hsub : ∀ s : String, ((remove_config s cs).map SSHConfig.name).Nodup := fun s =>
    ((List.filter_sublist cs).map SSHConfig.name).nodup h
  constructor
  · unfold add_config
    rw [List.map_append]
    refine (hsub p.name).append (by simp) ?_
    intro a ha
    simp only [remove_config, List.mem_map, List.mem_filter] at ha
    rcases ha with ⟨c, ⟨_, hne⟩, rfl⟩
    simp only [bne_iff_ne, ne_eq] at hne
    simp [hne]
  · exact hsub nm

/-- C6 witness: the invariant applied to a concrete two-profile registry. -/
theorem C6_name_unique_invariant_witness :
    ((add_config dupX1 [cfgA, cfgB]).map SSHConfig.name).Nodup ∧
    ((remove_config "alpha" [cfgA, cfgB]).map SSHConfig.name).Nodup :=
  C6_name_unique_invariant dupX1 "alpha" [cfgA, cfgB] (by decide)

/-- C4: for every profile sequence P, parsing back the serialized content
a successful `_save_config` writes returns P field-for-field with order
preserved; after the successful save the decrypted on-disk content equals
exactly the in-memory sequence at save time. -/
theorem C4_load_after_save (P : List SSHConfig) (disk : Option (List JRecord)) :
    load_config_pure (save_config_pure P) = some P ∧
    (save_config_m true P disk).1 = some (save_config_pure P) ∧
    loaded_view (save_config_m true P disk).1 = some P := by
  refine ⟨load_after_save_aux P, rfl, ?_⟩
  simp [save_config_m, loaded_view, save_config_pure, load_after_save_aux]

/-- C1: at the specification's own example — profiles with groups
`a/b`, `a/c` and one ungrouped — `get_all_groups` returns only the two
stored values and omits their strict prefix `"a"`, so the direct children
of the root are empty (the claim expects `{"a"}`), leaving the nested
groups unreachable from the browse root.  (`get_parent_groups`, which
computes exactly the missing prefixes, is never called.) -/
theorem C1_group_prefixes_missing :
    get_all_groups demoGrouped = ["a/b", "a/c"] ∧
    "a" ∉ get_all_groups demoGrouped ∧
    get_child_groups none demoGrouped = [] ∧
    (get_group_configs none demoGrouped).map SSHConfig.name = ["p3"] ∧
    get_parent_groups "a/b" = ["a"] := by decide

/-- C7: a run-loop trace over the registry `[alpha, beta]`: select the
second row, request deletion of `beta`, confirm.  The deletion happens
and the machine returns to Browse, but the selection index stays `1`,
exceeding the post-deletion listing of one item — the clamp compares
against the stale pre-deletion listing, so the index is left out of
bounds. -/
theorem C7_stale_index_clamp :
    c7_state1.current_index = 1 ∧
    c7_state2.mode = Mode.confirm_delete ∧ c7_state2.delete_confirm = some cfgB ∧
    c7_state3.mode = Mode.list ∧ c7_state3.configs = [cfgA] ∧
    c7_state3.current_index = 1 ∧
    (build_display_items c7_state3).display_items.length = 1 := by decide

/-- C2 counterexample: a manager whose memory and disk agree; `remove`
with a failing write returns with the in-memory mutation applied and the
disk untouched — the two no longer agree, so the claimed rollback does
not exist. -/
theorem C2_counterexample :
    mgr_agrees mgrDemo ∧
    (remove_config_m false "alpha" mgrDemo).2 = false ∧
    ¬ mgr_agrees (remove_config_m false "alpha" mgrDemo).1 := by decide

/-- C2 amended: when every write succeeds, a mutating operation leaves
the decrypted on-disk file equal to the in-memory sequence; when a write
fails, the prior on-disk content survives (granting the charitable
all-or-nothing write model) but the in-memory mutation is retained, not
rolled back, so the two sides can diverge. -/
theorem C2_rollback_amended (m : Mgr) (c : SSHConfig) (nm : String) :
    mgr_agrees (remove_config_m true nm m).1 ∧
    mgr_agrees (add_config_m true true c m).1 ∧
    ((remove_config_m false nm m).1.configs = remove_config nm m.configs ∧
     (remove_config_m false nm m).1.disk = m.disk ∧
     (remove_config_m false nm m).2 = false) ∧
    ((add_config_m true false c m).1.configs = remove_config c.name m.configs ++ [c] ∧
     (add_config_m true false c m).1.disk = some (save_config_pure (remove_config c.name m.configs)) ∧
     (add_config_m true false c m).2 = false) := by
  exact ⟨load_after_save_aux (remove_config nm m.configs),
         load_after_save_aux (remove_config c.name m.configs ++ [c]),
         ⟨rfl, rfl, rfl⟩, ⟨rfl, rfl, rfl⟩⟩

/-- C3 counterexample: a Submit on a buffer with empty `name`, `host`
and `username` and the out-of-range port `"99999"` — by the claim a
validation failure that must keep the machine in Edit with the registry
unchanged — instead builds the profile, adds it to the registry and
returns to Browse: the handler checks neither the port range nor
non-emptiness. -/
theorem C3_counterexample :
    (handle_add_input 10 badSubmitState).mode = Mode.list ∧
    (handle_add_input 10 badSubmitState).configs =
      [{ name := "", host := "", port := 99999, username := "",
         password := none, key_path := none, group := none }] := by decide

/-- C3 amended: Submit validates only that the port buffer parses as a
Python integer.  On parse failure it leaves the whole state unchanged
except for the transient message (so it stays in Edit and the registry is
untouched — in particular with `port = "abc"`); on parse success — any
integer, range unchecked, empty text fields allowed — it builds the
profile, upserts it (in edit mode after first removing the profile under
the old name), shows a message and returns to Browse. -/
theorem C3_submit_amended (s : UIState) :
    (pyInt s.input_values.port = none →
      handle_add_input 10 s = show_message_s (submit_error_msg s.input_values.port) s) ∧
    (∀ port, pyInt s.input_values.port = some port → s.mode = Mode.add →
      handle_add_input 10 s =
        { s with configs := add_config (mk_submitted_config s.input_values port) s.configs,
                 message := "Added connection: " ++ (mk_submitted_config s.input_values port).name,
                 message_timeout := 3, mode := Mode.list, editing_config := none }) ∧
    (∀ port old, pyInt s.input_values.port = some port → s.mode = Mode.edit →
      s.editing_config = some old →
      handle_add_input 10 s =
        { s with configs := add_config (mk_submitted_config s.input_values port)
                              (remove_config old.name s.configs),
                 message := "Updated connection: " ++ (mk_submitted_config s.input_values port).name,
                 message_timeout := 3, mode := Mode.list, editing_config := none }) := by
  refine ⟨fun hnone => ?_, fun port hsome hmode => ?_, fun port old hsome hmode hold => ?_⟩
  · simp [handle_add_input, KEY_UP, KEY_DOWN, KEY_BACKSPACE, hnone]
  · have hne : s.mode ≠ Mode.edit := by rw [hmode]; exact fun h => Mode.noConfusion h
    simp [handle_add_input, KEY_UP, KEY_DOWN, KEY_BACKSPACE, hsome, hne, show_message_s]
  · simp [handle_add_input, KEY_UP, KEY_DOWN, KEY_BACKSPACE, hsome, hmode, hold, show_message_s]

/-- C3 witness: the amended theorem applied to the `port = "abc"` buffer
of the specification's validation example — the machine stays in Edit and
only the transient message changes. -/
theorem C3_submit_amended_witness :
    handle_add_input 10 { badSubmitState with
      input_values := { badSubmitState.input_values with port := "abc" } } =
    show_message_s (submit_error_msg "abc") { badSubmitState with
      input_values := { badSubmitState.input_values with port := "abc" } } :=
  (C3_submit_amended _).1 (by decide)

/-- C9: in every mode, an input event whose key code has no branch in the
mode's handler leaves the whole navigation state — mode, path, selection
index, edit buffer, delete target, display list — and the registry
unchanged, and keeps the loop running. -/
theorem C9_unrecognized_ignored (s : UIState) (key : Int)
    (h : ¬ recognized_key s.mode key) :
    handle_input key s = (s, true) := by
  cases hm : s.mode
  case list =>
    rw [hm] at h
    simp only [recognized_key, not_or] at h
    obtain ⟨h1, h2, h3, h4, h5, h6, h7, h8, h9⟩ := h
    simp [handle_input, hm, handle_list_input, h1, h2, h3, h4, h5, h6, h7, h8, h9]
  case add =>
    rw [hm] at h
    simp only [recognized_key, not_or] at h
    obtain ⟨h1, h2, h3, h4, h5, h6, h7, h8⟩ := h
    simp [handle_input, hm, handle_add_input, h1, h2, h3, h4, h5, h6, h7, h8]
  case edit =>
    rw [hm] at h
    simp only [recognized_key, not_or] at h
    obtain ⟨h1, h2, h3, h4, h5, h6, h7, h8⟩ := h
    simp [handle_input, hm, handle_add_input, h1, h2, h3, h4, h5, h6, h7, h8]
  case confirm_delete =>
    rw [hm] at h
    simp only [recognized_key, not_or] at h
    obtain ⟨h1, h2, h3⟩ := h
    simp [handle_input, hm, handle_confirm_delete, h1, h2, h3]

/-- C9 witness: key code 0 is not a transition of Browse and is ignored
on a concrete drawn browse screen. -/
theorem C9_unrecognized_ignored_witness :
    ¬ recognized_key browse0.mode 0 ∧ handle_input 0 browse0 = (browse0, true) :=
  ⟨by decide, C9_unrecognized_ignored browse0 0 (by decide)⟩

/-! ## Display-listing lemmas -/

theorem get_child_groups_nodup (gp : Option String) (configs : List SSHConfig) :
    (get_child_groups gp configs).Nodup := by
  unfold get_child_groups
  rcases hf : isFalsyOptStr gp <;> simp only [hf, Bool.false_eq_true, ite_false, ite_true] <;>
    exact (List.filter_sublist _).nodup (get_all_groups_nodup configs)

/-- C10 counterexample: two registries holding the same two profiles —
both named `x`, hosts `1` and `2` — in opposite insertion orders produce
different browse listings (Python's `sorted` is stable, so equal names
keep their insertion order), refuting order-independence over arbitrary
profile lists. -/
theorem C10_counterexample :
    uiDupA.configs.Perm uiDupB.configs ∧
    (build_display_items uiDupA).display_items ≠ (build_display_items uiDupB).display_items :=
  ⟨List.Perm.swap dupX2 dupX1 [], by decide⟩

/-- C10 amended: the browse listing is the special up-item (present iff
the path is non-empty), then one row per direct child group in strictly
increasing lexicographic path order, then one row per profile of the
current group in non-decreasing name order; and for profile lists with
pairwise-distinct names — the registry invariant — the listing is
independent of the registry's insertion order. -/
theorem C10_display_order (s : UIState) (cs : List SSHConfig)
    (hperm : s.configs.Perm cs)
    (hnd : (s.configs.map SSHConfig.name).Nodup) :
    (build_display_items s).display_items =
      (if s.current_path.isEmpty then [] else [⟨"..", "dir", ItemData.noData⟩]) ++
      (sortStrs (get_child_groups (current_group_of s.current_path) s.configs)).map
        (fun g => (⟨group_label g s.configs, "dir", ItemData.groupPath g⟩ : DisplayItem)) ++
      (sortByName (get_group_configs (current_group_of s.current_path) s.configs)).map
        (fun c => (⟨config_label c, "config", ItemData.configRef c⟩ : DisplayItem)) ∧
    (sortStrs (get_child_groups (current_group_of s.current_path) s.configs)).Pairwise strLt ∧
    (sortByName (get_group_configs (current_group_of s.current_path) s.configs)).Pairwise nameLe ∧
    (build_display_items { s with configs := cs }).display_items =
      (build_display_items s).display_items := by
  refine ⟨rfl, ?_, sortByName_sorted _, ?_⟩
  · have hnodup : (sortStrs (get_child_groups (current_group_of s.current_path) s.configs)).Nodup :=
      ((sortStrs_perm _).nodup_iff).mpr (get_child_groups_nodup _ _)
    exact ((sortStrs_sorted _).and hnodup).imp (fun h => h)
  · have hgroups := get_child_groups_perm_eq (current_group_of s.current_path) hperm.symm
    have hndcs : (cs.map SSHConfig.name).Nodup := ((hperm.map _).nodup_iff).mp hnd
    have hsubcs : List.Sublist (get_group_configs (current_group_of s.current_path) cs) cs := by
      unfold get_group_configs
      rcases hf : isFalsyOptStr (current_group_of s.current_path) <;>
        simp only [hf, Bool.false_eq_true, ite_false, ite_true] <;>
        exact List.filter_sublist cs
    have hcfg : sortByName (get_group_configs (current_group_of s.current_path) cs) =
        sortByName (get_group_configs (current_group_of s.current_path) s.configs) :=
      sortByName_perm_eq (get_group_configs_perm _ hperm.symm)
        ((hsubcs.map SSHConfig.name).nodup hndcs)
    simp only [build_display_items]
    rw [hgroups, hcfg]
    congr 1
    congr 1
    exact List.map_congr_left (fun g _ => by rw [group_label_perm_eq g hperm.symm])

/-- C10 witness: the order theorem applied to the two-profile registry in
reversed insertion order. -/
theorem C10_display_order_witness :
    (build_display_items { { uiBase with configs := [cfgB, cfgA] } with
        configs := [cfgA, cfgB] }).display_items =
      (build_display_items { uiBase with configs := [cfgB, cfgA] }).display_items :=
  (C10_display_order { uiBase with configs := [cfgB, cfgA] } [cfgA, cfgB]
    (List.Perm.swap cfgA cfgB []) (by decide)).2.2.2

/-! ## `--show-config` lemmas -/

theorem getJStr_some {o : Option JValue} {v : String} (h : getJStr o = some v) :
    o = some (JValue.jstr v) := by
  cases o with
  | none => simp [getJStr] at h
  | some jv =>
    cases jv with
    | jstr s => simp [getJStr] at h; rw [h]
    | jnull => simp [getJStr] at h
    | jint n => simp [getJStr] at h

theorem getJInt_some {o : Option JValue} {v : Int} (h : getJInt o = some v) :
    o = some (JValue.jint v) := by
  cases o with
  | none => simp [getJInt] at h
  | some jv =>
    cases jv with
    | jstr s => simp [getJInt] at h
    | jnull => simp [getJInt] at h
    | jint n => simp [getJInt] at h; rw [h]

/-- A record `SSHConfig(**r)` accepts has all four keys `decrypt_config`
indexes, so its block formats without a `KeyError`. -/
theorem formatRecord_of_ofRecord {r : JRecord} {c : SSHConfig}
    (h : ofRecord r = some c) : ∃ out, formatRecord r = some out := by
  unfold ofRecord at h
  by_cases hall : r.all (fun kv => sshFieldNames.contains kv.1) = true
  case neg => rw [if_neg hall] at h; exact absurd h (by simp)
  case pos =>
    rw [if_pos hall] at h
    cases hn : getJStr (r.lookup "name") <;> rw [hn] at h
    · exact absurd h (by simp)
    cases hh : getJStr (r.lookup "host") <;> rw [hh] at h
    · exact absurd h (by simp)
    cases hp : getJInt (r.lookup "port") <;> rw [hp] at h
    · exact absurd h (by simp)
    cases hu : getJStr (r.lookup "username") <;> rw [hu] at h
    · exact absurd h (by simp)
    unfold formatRecord
    rw [getJStr_some hn, getJStr_some hh, getJInt_some hp, getJStr_some hu]
    exact ⟨_, rfl⟩

theorem formatRecords_of_load : ∀ {rs : List JRecord} {cs : List SSHConfig},
    load_config_pure rs = some cs → ∃ blocks, formatRecords rs = some blocks := by
  intro rs
  induction rs with
  | nil => exact fun _ => ⟨[], rfl⟩
  | cons r rs ih =>
    intro cs h
    unfold load_config_pure at h
    cases ho : ofRecord r <;> rw [ho] at h
    · exact absurd h (by simp)
    · cases hl : load_config_pure rs <;> rw [hl] at h
      · exact absurd h (by simp)
      · obtain ⟨out, hout⟩ := formatRecord_of_ofRecord ho
        obtain ⟨blocks, hblocks⟩ := ih hl
        exact ⟨out :: blocks, by unfold formatRecords; rw [hout, hblocks]⟩

/-- C8: with `--show-config` the interactive loop is bypassed.  The exit
status is 0 exactly when the key/registry load succeeds (the file is
absent — an empty first-run registry — or decrypts and parses); any
decryption or parse failure raises out of `SSHManager.__init__`, which is
uncaught on this path, so the interpreter exits non-zero and prints
nothing.  On success the printed text is the `decrypt_config` rendering,
whose blocks replace a present password by the literal `[encrypted]`
(see `formatRecord`). -/
theorem C8_show_config (f : ConfigFileState) :
    ((main_show_config f).1 = 0 ↔
      f = ConfigFileState.absent ∨
        ∃ rs cs, f = ConfigFileState.records rs ∧ load_config_pure rs = some cs) ∧
    ((main_show_config f).1 ≠ 0 → (main_show_config f).2 = none) ∧
    (main_show_config ConfigFileState.absent).2 = some "No config file found." ∧
    (∀ rs cs, f = ConfigFileState.records rs → load_config_pure rs = some cs →
      ∃ blocks, formatRecords rs = some blocks ∧
        (main_show_config f).2 = some (String.intercalate "\n\n" blocks)) := by
  refine ⟨?_, ?_, rfl, ?_⟩
  · cases f with
    | absent => simp [main_show_config, load_config_result]
    | undecryptable => simp [main_show_config, load_config_result]
    | badJson => simp [main_show_config, load_config_result]
    | records rs =>
      cases hl : load_config_pure rs with
      | none => simp [main_show_config, load_config_result, hl]
      | some cs =>
        have hmain : main_show_config (ConfigFileState.records rs) =
            (0, some (decrypt_config_str (ConfigFileState.records rs))) := by
          simp [main_show_config, load_config_result, hl]
        rw [hmain]
        exact iff_of_true rfl (Or.inr ⟨rs, cs, rfl, hl⟩)
  · cases f with
    | absent => intro h; exact absurd rfl h
    | undecryptable => intro _; rfl
    | badJson => intro _; rfl
    | records rs =>
      cases hl : load_config_pure rs with
      | none => intro _; simp [main_show_config, load_config_result, hl]
      | some cs => simp [main_show_config, load_config_result, hl]
  · intro rs cs hf hl
    subst hf
    obtain ⟨blocks, hblocks⟩ := formatRecords_of_load hl
    exact ⟨blocks, hblocks,
      by simp [main_show_config, load_config_result, hl, decrypt_config_str, hblocks]⟩

/-- C8 witness: a registry file holding the serialized one-profile
registry loads, so the `--show-config` run exits 0. -/
theorem C8_show_config_witness :
    (main_show_config (ConfigFileState.records [toRecord cfgA])).1 = 0 :=
  (C8_show_config _).1.mpr (Or.inr ⟨[toRecord cfgA], [cfgA], rfl, by decide⟩)
